import Mathlib

/-!
Verification development for the 3suite-comfy-pack orchestrator
(src/main.js).

The program is sequential glue over a configuration store, an HTTP
client and a filesystem watcher.  We embed it shallowly:

* JSON documents are the inductive type `Json`; JavaScript truthiness
  of a parsed JSON value is `truthy` (numbers are modelled as integers,
  which preserves truthiness: exactly 0 is falsy).
* The filesystem is an oracle `FS : String → Option (Option Json)`:
  `none` is an I/O error (missing/unreadable file), `some none` is a
  file whose content does not parse as JSON, `some (some j)` is a file
  parsing to `j`.  Path resolution (path.resolve) is absorbed into the
  oracle key.
* HTTP transports are oracles returning `FetchResult` (a network-level
  error, or a response with a status code).  The booleans returned by
  `terminateEndpoint` / `executeWorkflow` are computed from the oracle
  exactly as src/main.js computes them from fetch; the functions are
  total, modelling the catch-all that makes them never throw.
* The observable behaviour of the orchestration functions is a
  `Trace`: a list of sequential rounds, each round a list of requests
  issued concurrently and all awaited before the next round starts.
  One awaited call is a singleton round; a Promise.all over a batch of
  already-started calls is one round containing the whole batch.
  Results of terminate/execute are ignored by the control flow of
  src/main.js, so traces do not depend on the transport oracles.
* The watch-handle lifecycle (global.workflowWatcher in onConfigChanged
  and the startup path) is a transition system `WatchState`/`stepWatch`
  whose steps are the synchronous prefix of a configuration-change
  notification (`LifecycleStep.notify`) and the asynchronous completion
  of the orchestration restart promise (`LifecycleStep.complete`).
-/

/-- Parsed JSON documents (JSON.parse results).  Numbers are modelled
as integers; truthiness only distinguishes zero. -/
inductive Json where
  | null : Json
  | bool (b : Bool) : Json
  | num (n : Int) : Json
  | str (s : String) : Json
  | arr (elems : List Json) : Json
  | obj (fields : List (String × Json)) : Json

/-- JavaScript truthiness of a parsed JSON value, as tested by the
`if (workflowData)` guards in executeAllWorkflows and
executeWorkflowsForEndpoint: null, false, 0 and the empty string are
falsy; every array and object is truthy. -/
def truthy : Json → Bool
  | .null => false
  | .bool b => b
  | .num n => n != 0
  | .str s => s != ""
  | .arr _ => true
  | .obj _ => true

/-- One entry of an endpoint's workflows list: a workflow file path and
a port (src/main.js reads workflowConfig.workflow and
workflowConfig.port). -/
structure WorkflowConfig where
  workflow : String
  port : Int
deriving DecidableEq

/-- One endpoint of the configuration: its url and its ordered workflow
list. -/
structure EndpointConfig where
  url : String
  workflows : List WorkflowConfig
deriving DecidableEq

/-- Filesystem oracle: `none` = I/O error, `some none` = content that
fails JSON.parse, `some (some j)` = content parsing to `j`. -/
def FS : Type := String → Option (Option Json)

/-- loadWorkflowFile (src/main.js lines 73-82): resolve, read, parse;
on any I/O or parse error the catch logs and returns null (here:
`none`).  Total, so it never throws. -/
def loadWorkflowFile (fs : FS) (filename : String) : Option Json :=
  match fs filename with
  | none => none
  | some none => none
  | some (some j) => some j

/-- The loaded document if and only if the file loads and is truthy:
this is the combined effect of loadWorkflowFile followed by the
`if (workflowData)` guard.  Used only in theorem statements; the trace
functions below are defined by the source's own control flow. -/
def guardedLoad (fs : FS) (filename : String) : Option Json :=
  match loadWorkflowFile fs filename with
  | some wd => if truthy wd then some wd else none
  | none => none

/-- The request body and target built by executeWorkflow
(src/main.js lines 42-58). -/
structure ExecuteRequest where
  reqUrl : String
  parallel : Bool
  host : String
  port : String
  workflow_api : Json

/-- executeWorkflow builds exactly this request: POST to
http://{url}/api/bentoml/serve with payload fields parallel, host,
port (stringified) and workflow_api (the loaded document, unchanged). -/
def mkExecuteRequest (url : String) (port : Int) (workflowData : Json) : ExecuteRequest :=
  { reqUrl := "http://" ++ url ++ "/api/bentoml/serve"
    parallel := true
    host := "0.0.0.0"
    port := toString port
    workflow_api := workflowData }

/-- Outcome of one fetch exchange: a transport-level error (rejection
of the fetch promise or of reading the body), or a response with a
status code. -/
inductive FetchResult where
  | err : FetchResult
  | resp (status : Nat) : FetchResult

/-- Response.ok of the fetch API: status in the inclusive range
200..299. -/
def httpOk (status : Nat) : Bool :=
  200 ≤ status && status ≤ 299

/-- The url targeted by terminateEndpoint (src/main.js line 23). -/
def terminateRequestUrl (url : String) : String :=
  "http://" ++ url ++ "/api/bentoml/serve/terminate"

/-- terminateEndpoint (src/main.js lines 20-40): fetch the terminate
url; a non-ok status is thrown and caught, any transport error is
caught; the catch returns false, success returns true.  Total: never
throws to its caller. -/
def terminateEndpoint (transport : String → FetchResult) (url : String) : Bool :=
  match transport (terminateRequestUrl url) with
  | .err => false
  | .resp s => httpOk s

/-- executeWorkflow (src/main.js lines 42-70): build the payload, POST
it; non-ok thrown and caught, transport errors caught; false from the
catch, true on success.  Total: never throws to its caller. -/
def executeWorkflow (transport : ExecuteRequest → FetchResult) (url : String)
    (port : Int) (workflowData : Json) : Bool :=
  match transport (mkExecuteRequest url port workflowData) with
  | .err => false
  | .resp s => httpOk s

/-- A network call issued by the orchestrator. -/
inductive Event where
  | terminate (url : String) : Event
  | execute (req : ExecuteRequest) : Event

/-- Traces: sequential rounds; the events of one round are in flight
concurrently and all settle before the next round starts. -/
abbrev Trace : Type := List (List Event)

/-- All events of a trace, in round order. -/
def traceEvents : Trace → List Event
  | [] => []
  | r :: rest => r ++ traceEvents rest

/-- Recognizer for terminate events. -/
def isTerminate : Event → Bool
  | .terminate _ => true
  | .execute _ => false

/-- Recognizer for execute events. -/
def isExecute : Event → Bool
  | .terminate _ => false
  | .execute _ => true

/-- The batch of terminate calls started by terminateAllEndpoints'
endpoints.map (src/main.js line 89), one per configured endpoint, in
configuration order. -/
def terminateRound : List EndpointConfig → List Event
  | [] => []
  | ep :: rest => Event.terminate ep.url :: terminateRound rest

/-- terminateAllEndpoints (src/main.js lines 85-93): start one
terminate per endpoint and Promise.all them — a single concurrent
round. -/
def terminateAllEndpoints (endpoints : List EndpointConfig) : Trace :=
  [terminateRound endpoints]

/-- The inner loop of executeAllWorkflows (src/main.js lines 101-110)
for one endpoint: load each workflow file; if the loaded value is
truthy, await the execute call before the next iteration — each issued
execute is its own round. -/
def bulkExecuteRounds (fs : FS) (url : String) : List WorkflowConfig → Trace
  | [] => []
  | wc :: rest =>
    match loadWorkflowFile fs wc.workflow with
    | some wd =>
      if truthy wd then
        [Event.execute (mkExecuteRequest url wc.port wd)] :: bulkExecuteRounds fs url rest
      else
        bulkExecuteRounds fs url rest
    | none => bulkExecuteRounds fs url rest

/-- executeAllWorkflows (src/main.js lines 95-114): endpoint by
endpoint, workflow by workflow, each execute awaited (the concurrent
collection is commented out in the source; workflowPromises stays
empty and the final Promise.all adds nothing). -/
def executeAllWorkflows (fs : FS) : List EndpointConfig → Trace
  | [] => []
  | ep :: rest => bulkExecuteRounds fs ep.url ep.workflows ++ executeAllWorkflows fs rest

/-- runOrchestration (src/main.js lines 195-202): await
terminateAllEndpoints, then await executeAllWorkflows.  Nothing in the
model throws, so the top-level catch is not exercised. -/
def runOrchestration (fs : FS) (endpoints : List EndpointConfig) : Trace :=
  terminateAllEndpoints endpoints ++ executeAllWorkflows fs endpoints

/-- The batch of execute calls started (not yet awaited) by the loop of
executeWorkflowsForEndpoint (src/main.js lines 131-138): one started
call per workflow whose file loads to a truthy value. -/
def executeRound (fs : FS) (url : String) : List WorkflowConfig → List Event
  | [] => []
  | wc :: rest =>
    match loadWorkflowFile fs wc.workflow with
    | some wd =>
      if truthy wd then
        Event.execute (mkExecuteRequest url wc.port wd) :: executeRound fs url rest
      else
        executeRound fs url rest
    | none => executeRound fs url rest

/-- executeWorkflowsForEndpoint (src/main.js lines 116-142): find the
endpoint by url (no calls if absent); await its terminate regardless
of the boolean result; then start an execute for every currently
configured workflow that loads truthy and Promise.all them — one
terminate round followed by one concurrent execute round. -/
def executeWorkflowsForEndpoint (fs : FS) (endpoints : List EndpointConfig)
    (endpointUrl : String) : Trace :=
  match endpoints.find? (fun ep => ep.url == endpointUrl) with
  | none => []
  | some ep => [Event.terminate ep.url] :: [executeRound fs ep.url ep.workflows]

/-- The fileToEndpoints Map of setupFileWatchers, as an ordered
association list (JS Maps preserve key insertion order). -/
abbrev IndexT : Type := List (String × List String)

/-- One iteration of the index-building loop (src/main.js lines
156-159): create the key with an empty list if absent, then push the
endpoint url. -/
def pushEntry : IndexT → String → String → IndexT
  | [], f, u => [(f, [u])]
  | (k, vs) :: rest, f, u =>
    if k == f then (k, vs ++ [u]) :: rest else (k, vs) :: pushEntry rest f u

/-- The inner loop of setupFileWatchers over one endpoint's
workflows. -/
def indexWorkflows (url : String) : IndexT → List WorkflowConfig → IndexT
  | m, [] => m
  | m, wc :: rest => indexWorkflows url (pushEntry m wc.workflow url) rest

/-- The outer loop of setupFileWatchers over the endpoints. -/
def indexEndpointsFrom : IndexT → List EndpointConfig → IndexT
  | m, [] => m
  | m, ep :: rest => indexEndpointsFrom (indexWorkflows ep.url m ep.workflows) rest

/-- The complete fileToEndpoints map built at watch setup
(src/main.js lines 145-161). -/
def fileToEndpoints (endpoints : List EndpointConfig) : IndexT :=
  indexEndpointsFrom [] endpoints

/-- Map lookup with the change handler's default:
fileToEndpoints.get(filename) with undefined coalesced to []
(src/main.js line 180). -/
def lookupVal : IndexT → String → List String
  | [], _ => []
  | (k, vs) :: rest, f => if k == f then vs else lookupVal rest f

/-- Map.has: whether the path is a key of the index. -/
def hasKey : IndexT → String → Bool
  | [], _ => false
  | (k, _) :: rest, f => k == f || hasKey rest f

/-- The for-loop of the change handler (src/main.js lines 182-188):
each affected endpoint is processed with `await` inside try/catch, so
whether or not processing a url ends in an error (the Bool of `step`),
the loop continues with the next url.  The first component of `step u`
is the trace produced for u before the loop moves on. -/
def reloadLoop (step : String → Trace × Bool) : List String → Trace
  | [] => []
  | url :: rest => (step url).1 ++ reloadLoop step rest

/-- Processing of one affected endpoint inside the change handler: the
embedded executeWorkflowsForEndpoint is total, so it never reaches the
catch (second component false). -/
def changeHandlerStep (fs : FS) (endpoints : List EndpointConfig)
    (url : String) : Trace × Bool :=
  (executeWorkflowsForEndpoint fs endpoints url, false)

/-- The watcher.on change callback (src/main.js lines 178-189): look
the changed path up in the index (defaulting to no endpoints) and
process each affected endpoint sequentially under try/catch. -/
def changeHandler (fs : FS) (endpoints : List EndpointConfig) (index : IndexT)
    (filename : String) : Trace :=
  reloadLoop (changeHandlerStep fs endpoints) (lookupVal index filename)

/-- Pointwise filesystem update, used to compare a run against the run
in which one file's entry is replaced. -/
def updateFs (fs : FS) (p : String) (v : Option (Option Json)) : FS :=
  fun q => if q == p then v else fs q

/-- State of the watch-handle lifecycle.  `current` is
global.workflowWatcher (none = null/unset); `created` lists the ids of
watchers returned by setupFileWatchers so far; `closes` records every
close() invocation by watcher id, in order; `pending` counts
configuration-change orchestration restarts whose then-callback has
not yet run; `nextId` is the next fresh watcher id. -/
structure WatchState where
  current : Option Nat
  nextId : Nat
  created : List Nat
  closes : List Nat
  pending : Nat
deriving DecidableEq

/-- The two atomic steps of the lifecycle on the single JS thread:
`notify` is the synchronous body of onConfigChanged (close the current
handle if set — without unsetting it — and start runOrchestration);
`complete hasFiles` is the then-callback of one started restart
(global.workflowWatcher = setupFileWatchers(), which returns a fresh
watcher, or null when no workflow files are configured). -/
inductive LifecycleStep where
  | notify : LifecycleStep
  | complete (hasFiles : Bool) : LifecycleStep
deriving DecidableEq

/-- Transition function of the lifecycle (src/main.js lines 205-219). -/
def stepWatch (s : WatchState) : LifecycleStep → WatchState
  | .notify =>
    { s with closes := s.closes ++ s.current.toList, pending := s.pending + 1 }
  | .complete hasFiles =>
    if hasFiles then
      { current := some s.nextId
        nextId := s.nextId + 1
        created := s.created ++ [s.nextId]
        closes := s.closes
        pending := s.pending - 1 }
    else
      { s with current := none, pending := s.pending - 1 }

/-- Run a list of lifecycle steps. -/
def runWatch : WatchState → List LifecycleStep → WatchState
  | s, [] => s
  | s, st :: rest => runWatch (stepWatch s st) rest

/-- The watch subscriptions that have been created and never closed. -/
def activeWatchers (s : WatchState) : List Nat :=
  s.created.filter (fun w => decide (w ∉ s.closes))

/-- Well-formed step lists: a completion can only happen while a
restart is pending. -/
def wfSteps : WatchState → List LifecycleStep → Bool
  | _, [] => true
  | s, .notify :: rest => wfSteps (stepWatch s .notify) rest
  | s, .complete b :: rest => (s.pending != 0) && wfSteps (stepWatch s (.complete b)) rest

/-- Non-overlapping discipline: every notification arrives with no
restart in flight, and every completion is the completion of the one
pending restart. -/
def nonOverlapping : WatchState → List LifecycleStep → Bool
  | _, [] => true
  | s, .notify :: rest => (s.pending == 0) && nonOverlapping (stepWatch s .notify) rest
  | s, .complete b :: rest => (s.pending == 1) && nonOverlapping (stepWatch s (.complete b)) rest

/-- Lifecycle invariant maintained by non-overlapping runs: watcher ids
are fresh and distinct, no handle is closed twice, any never-closed
watcher is the current one with no restart pending, and at most one
restart is in flight. -/
def WatchInv (s : WatchState) : Prop :=
  s.created.Nodup ∧
  (∀ w ∈ s.created, w < s.nextId) ∧
  (∀ w ∈ s.closes, w < s.nextId) ∧
  s.closes.Nodup ∧
  (∀ w ∈ s.created, w ∉ s.closes → s.current = some w ∧ s.pending = 0) ∧
  (∀ w ∈ s.current.toList, w ∈ s.created ∧ (s.pending = 0 → w ∉ s.closes)) ∧
  s.pending ≤ 1

/-- The endpoint urls referencing a path, one occurrence per
(endpoint, workflow) pair that names the path, in endpoint order: the
reference list the index is claimed to store. -/
def refListFor (endpoints : List EndpointConfig) (g : String) : List String :=
  endpoints.flatMap
    (fun ep => ep.workflows.filterMap
      (fun wc => if wc.workflow == g then some ep.url else none))

theorem traceEvents_append (a b : Trace) :
    traceEvents (a ++ b) = traceEvents a ++ traceEvents b := by
  induction a with
  | nil => rfl
  | cons r rest ih => simp [traceEvents, ih]

theorem terminateRound_eq_map (endpoints : List EndpointConfig) :
    terminateRound endpoints = endpoints.map (fun ep => Event.terminate ep.url) := by
  induction endpoints with
  | nil => rfl
  | cons ep rest ih => simp [terminateRound, ih]

theorem executeRound_eq (fs : FS) (url : String) (wcs : List WorkflowConfig) :
    executeRound fs url wcs =
      wcs.filterMap (fun wc => (guardedLoad fs wc.workflow).map
        (fun wd => Event.execute (mkExecuteRequest url wc.port wd))) := by
  induction wcs with
  | nil => rfl
  | cons wc rest ih =>
    cases h : loadWorkflowFile fs wc.workflow with
    | none => simp [executeRound, guardedLoad, h, ih]
    | some wd =>
      cases ht : truthy wd <;>
        simp [executeRound, guardedLoad, h, ht, ih, List.filterMap_cons]

theorem bulkExecuteRounds_eq (fs : FS) (url : String) (wcs : List WorkflowConfig) :
    bulkExecuteRounds fs url wcs =
      wcs.filterMap (fun wc => (guardedLoad fs wc.workflow).map
        (fun wd => [Event.execute (mkExecuteRequest url wc.port wd)])) := by
  induction wcs with
  | nil => rfl
  | cons wc rest ih =>
    cases h : loadWorkflowFile fs wc.workflow with
    | none => simp [bulkExecuteRounds, guardedLoad, h, ih]
    | some wd =>
      cases ht : truthy wd <;>
        simp [bulkExecuteRounds, guardedLoad, h, ht, ih, List.filterMap_cons]

theorem traceEvents_bulkExecuteRounds (fs : FS) (url : String) (wcs : List WorkflowConfig) :
    traceEvents (bulkExecuteRounds fs url wcs) = executeRound fs url wcs := by
  induction wcs with
  | nil => rfl
  | cons wc rest ih =>
    cases h : loadWorkflowFile fs wc.workflow with
    | none => simp [bulkExecuteRounds, executeRound, h, ih]
    | some wd =>
      cases ht : truthy wd <;>
        simp [bulkExecuteRounds, executeRound, traceEvents, h, ht, ih]

theorem executeAllWorkflows_eq (fs : FS) (endpoints : List EndpointConfig) :
    executeAllWorkflows fs endpoints =
      endpoints.flatMap (fun ep => bulkExecuteRounds fs ep.url ep.workflows) := by
  induction endpoints with
  | nil => rfl
  | cons ep rest ih => simp [executeAllWorkflows, ih]

theorem reloadLoop_eq_flatMap (step : String → Trace × Bool) (urls : List String) :
    reloadLoop step urls = urls.flatMap (fun u => (step u).1) := by
  induction urls with
  | nil => rfl
  | cons u rest ih => simp [reloadLoop, ih]

theorem lookupVal_eq_nil_of_hasKey_false (m : IndexT) (f : String)
    (h : hasKey m f = false) : lookupVal m f = [] := by
  induction m with
  | nil => rfl
  | cons p rest ih =>
    obtain ⟨k, vs⟩ := p
    simp only [hasKey, Bool.or_eq_false_iff] at h
    simp [lookupVal, h.1, ih h.2]

theorem lookupVal_pushEntry (m : IndexT) (f u g : String) :
    lookupVal (pushEntry m f u) g =
      lookupVal m g ++ (if f == g then [u] else []) := by
  induction m with
  | nil => simp [pushEntry, lookupVal]
  | cons p rest ih =>
    obtain ⟨k, vs⟩ := p
    by_cases hkf : k = f
    · by_cases hkg : k = g
      · have hfg : f = g := hkg ▸ hkf.symm
        simp [pushEntry, lookupVal, hkf, hkg, hfg]
      · have hfg : ¬ f = g := fun hh => hkg (hh ▸ hkf)
        simp [pushEntry, lookupVal, hkf, hkg, hfg]
    · by_cases hkg : k = g
      · have hgf : ¬ g = f := fun hh => hkf (hkg.trans hh)
        have hfg : ¬ f = g := fun hh => hgf hh.symm
        simp [pushEntry, lookupVal, hkf, hkg, hgf, hfg]
      · simp [pushEntry, lookupVal, hkf, hkg, ih]

theorem hasKey_pushEntry (m : IndexT) (f u g : String) :
    hasKey (pushEntry m f u) g = (hasKey m g || f == g) := by
  induction m with
  | nil => simp [pushEntry, hasKey]
  | cons p rest ih =>
    obtain ⟨k, vs⟩ := p
    by_cases hkf : k = f
    · by_cases hkg : k = g
      · simp [pushEntry, hasKey, hkf, hkg]
        exact fun h => Or.inl h
      · simp [pushEntry, hasKey, hkf, hkg]
        exact fun h => Or.inl h
    · simp [pushEntry, hasKey, hkf, ih, Bool.or_assoc]

theorem lookupVal_indexWorkflows (url g : String) (wcs : List WorkflowConfig) :
    ∀ m : IndexT, lookupVal (indexWorkflows url m wcs) g =
      lookupVal m g ++
        wcs.filterMap (fun wc => if wc.workflow == g then some url else none) := by
  induction wcs with
  | nil => intro m; simp [indexWorkflows]
  | cons wc rest ih =>
    intro m
    rw [indexWorkflows, ih, lookupVal_pushEntry, List.filterMap_cons]
    by_cases h : wc.workflow = g <;> simp [h]

theorem hasKey_indexWorkflows (url g : String) (wcs : List WorkflowConfig) :
    ∀ m : IndexT, hasKey (indexWorkflows url m wcs) g =
      (hasKey m g || wcs.any (fun wc => wc.workflow == g)) := by
  induction wcs with
  | nil => intro m; simp [indexWorkflows]
  | cons wc rest ih =>
    intro m
    rw [indexWorkflows, ih, hasKey_pushEntry, List.any_cons]
    by_cases h : wc.workflow = g <;> simp [h, Bool.or_comm, Bool.or_assoc, Bool.or_left_comm]

theorem lookupVal_indexEndpointsFrom (g : String) (endpoints : List EndpointConfig) :
    ∀ m : IndexT, lookupVal (indexEndpointsFrom m endpoints) g =
      lookupVal m g ++ refListFor endpoints g := by
  induction endpoints with
  | nil => intro m; simp [indexEndpointsFrom, refListFor]
  | cons ep rest ih =>
    intro m
    rw [indexEndpointsFrom, ih, lookupVal_indexWorkflows]
    simp [refListFor]

theorem hasKey_indexEndpointsFrom (g : String) (endpoints : List EndpointConfig) :
    ∀ m : IndexT, hasKey (indexEndpointsFrom m endpoints) g =
      (hasKey m g ||
        endpoints.any (fun ep => ep.workflows.any (fun wc => wc.workflow == g))) := by
  induction endpoints with
  | nil => intro m; simp [indexEndpointsFrom]
  | cons ep rest ih =>
    intro m
    rw [indexEndpointsFrom, ih, hasKey_indexWorkflows, List.any_cons, Bool.or_assoc]

theorem guardedLoad_eq_some (fs : FS) (p : String) (wd : Json) :
    guardedLoad fs p = some wd ↔
      loadWorkflowFile fs p = some wd ∧ truthy wd = true := by
  cases h : loadWorkflowFile fs p with
  | none => simp [guardedLoad, h]
  | some w =>
    cases ht : truthy w with
    | true =>
      simp only [guardedLoad, h, ht, if_true]
      constructor
      · intro hw
        have hw' : w = wd := by injection hw
        exact ⟨by rw [hw'], by rw [← hw']; exact ht⟩
      · intro hw
        have hw' : w = wd := by injection hw.1
        rw [hw']
    | false =>
      simp only [guardedLoad, h, ht, if_false]
      constructor
      · intro hw; exact absurd hw (by simp)
      · intro hw
        have hw' : w = wd := by injection hw.1
        rw [hw', hw.2] at ht
        exact absurd ht (by simp)

theorem nodup_append_singleton {l : List Nat} {a : Nat} (h : l.Nodup) (ha : a ∉ l) :
    (l ++ [a]).Nodup := by
  rw [List.nodup_append]
  refine ⟨h, List.nodup_singleton a, ?_⟩
  intro x hx hxa
  rw [List.mem_singleton] at hxa
  exact ha (hxa ▸ hx)

theorem watchInv_step (s : WatchState) (st : LifecycleStep)
    (hn : st = .notify → s.pending = 0)
    (hc : ∀ b, st = .complete b → s.pending = 1)
    (hInv : WatchInv s) :
    WatchInv (stepWatch s st) := by
  obtain ⟨h1, h2, h3, h4, h5, h6, h7⟩ := hInv
  cases st with
  | notify =>
    have hp0 : s.pending = 0 := hn rfl
    simp only [stepWatch]
    refine ⟨h1, h2, ?_, ?_, ?_, ?_, ?_⟩
    · intro w hw
      rcases List.mem_append.mp hw with hmem | hmem
      · exact h3 w hmem
      · exact h2 w (h6 w hmem).1
    · cases hcur : s.current with
      | none => simpa using h4
      | some w0 =>
        have h6w := h6 w0 (by simp [hcur])
        simpa [hcur] using nodup_append_singleton h4 (h6w.2 hp0)
    · intro w hw hwn
      exfalso
      have hwnc : w ∉ s.closes := fun hmem => hwn (List.mem_append.mpr (Or.inl hmem))
      have h5w := h5 w hw hwnc
      apply hwn
      refine List.mem_append.mpr (Or.inr ?_)
      rw [Option.mem_toList]
      exact h5w.1.symm ▸ rfl
    · intro w hw
      exact ⟨(h6 w hw).1,
        fun habs => absurd (show s.pending + 1 = 0 from habs) (by omega)⟩
    · show s.pending + 1 ≤ 1
      omega
  | complete b =>
    have hp1 : s.pending = 1 := hc b rfl
    have hall : ∀ w ∈ s.created, w ∈ s.closes := by
      intro w hw
      by_contra hwn
      have := (h5 w hw hwn).2
      omega
    have hfresh : s.nextId ∉ s.created := fun hmem => absurd (h2 _ hmem) (lt_irrefl _)
    have hfreshc : s.nextId ∉ s.closes := fun hmem => absurd (h3 _ hmem) (lt_irrefl _)
    cases b with
    | true =>
      have hstep : stepWatch s (.complete true) =
          { current := some s.nextId
            nextId := s.nextId + 1
            created := s.created ++ [s.nextId]
            closes := s.closes
            pending := s.pending - 1 } := by
        simp [stepWatch]
      rw [hstep]
      refine ⟨nodup_append_singleton h1 hfresh, ?_, ?_, h4, ?_, ?_, ?_⟩
      · intro w hw
        show w < s.nextId + 1
        rcases List.mem_append.mp hw with hmem | hmem
        · exact Nat.lt_succ_of_lt (h2 w hmem)
        · rw [List.mem_singleton] at hmem
          omega
      · intro w hw
        exact Nat.lt_succ_of_lt (h3 w hw)
      · intro w hw hwn
        rcases List.mem_append.mp hw with hmem | hmem
        · exact absurd (hall w hmem) hwn
        · rw [List.mem_singleton] at hmem
          exact ⟨by rw [hmem], show s.pending - 1 = 0 by omega⟩
      · intro w hw
        rw [Option.mem_toList, Option.mem_def, Option.some.injEq] at hw
        subst hw
        exact ⟨List.mem_append.mpr (Or.inr (List.mem_singleton.mpr rfl)), fun _ => hfreshc⟩
      · show s.pending - 1 ≤ 1
        omega
    | false =>
      have hstep : stepWatch s (.complete false) =
          { s with current := none, pending := s.pending - 1 } := by
        simp [stepWatch]
      rw [hstep]
      refine ⟨h1, h2, h3, h4, ?_, ?_, ?_⟩
      · intro w hw hwn
        exact absurd (hall w hw) hwn
      · intro w hw
        simp at hw
      · show s.pending - 1 ≤ 1
        omega

theorem watchInv_runWatch (s : WatchState) (steps : List LifecycleStep)
    (hInv : WatchInv s) (hv : nonOverlapping s steps = true) :
    WatchInv (runWatch s steps) := by
  induction steps generalizing s with
  | nil => exact hInv
  | cons st rest ih =>
    cases st with
    | notify =>
      simp only [nonOverlapping, Bool.and_eq_true, beq_iff_eq] at hv
      exact ih _ (watchInv_step s .notify (fun _ => hv.1)
        (fun b hb => LifecycleStep.noConfusion hb) hInv) hv.2
    | complete b =>
      simp only [nonOverlapping, Bool.and_eq_true, beq_iff_eq] at hv
      exact ih _ (watchInv_step s (.complete b)
        (fun hb => LifecycleStep.noConfusion hb) (fun b2 _ => hv.1) hInv) hv.2

theorem nonOverlapping_prefix (s : WatchState) (pre suf : List LifecycleStep)
    (h : nonOverlapping s (pre ++ suf) = true) : nonOverlapping s pre = true := by
  induction pre generalizing s with
  | nil => rfl
  | cons st rest ih =>
    cases st with
    | notify =>
      simp only [List.cons_append, nonOverlapping, Bool.and_eq_true] at h ⊢
      exact ⟨h.1, ih _ h.2⟩
    | complete b =>
      simp only [List.cons_append, nonOverlapping, Bool.and_eq_true] at h ⊢
      exact ⟨h.1, ih _ h.2⟩

theorem activeWatchers_length_le_one (s : WatchState) (hInv : WatchInv s) :
    (activeWatchers s).length ≤ 1 := by
  obtain ⟨h1, _, _, _, h5, _, _⟩ := hInv
  have hnd : (activeWatchers s).Nodup := h1.filter _
  cases hact : activeWatchers s with
  | nil => simp
  | cons x t =>
    cases t with
    | nil => simp
    | cons y t2 =>
      exfalso
      have hx : x ∈ activeWatchers s := by
        rw [hact]; exact List.mem_cons_self _ _
      have hy : y ∈ activeWatchers s := by
        rw [hact]; exact List.mem_cons_of_mem _ (List.mem_cons_self _ _)
      have hx' := List.mem_filter.mp hx
      have hy' := List.mem_filter.mp hy
      have hxc := (h5 x hx'.1 (of_decide_eq_true hx'.2)).1
      have hyc := (h5 y hy'.1 (of_decide_eq_true hy'.2)).1
      rw [hxc, Option.some.injEq] at hyc
      rw [hact] at hnd
      exact (List.nodup_cons.mp hnd).1 (hyc ▸ List.mem_cons_self _ _)

/-- The configuration of the spec's worked example:
endpointA serves fileX, endpointB serves fileX and fileY. -/
def exampleEndpoints : List EndpointConfig :=
  [{ url := "endpointA", workflows := [{ workflow := "fileX", port := 1 }] },
   { url := "endpointB",
     workflows := [{ workflow := "fileX", port := 2 }, { workflow := "fileY", port := 3 }] }]

/-- C1: the file-to-endpoints map built at watch setup contains exactly
the workflow paths referenced by some endpoint; each path maps to the
endpoint urls referencing it, appended in endpoint iteration order and
never deduplicated; in particular the configuration
endpointA:[fileX], endpointB:[fileX, fileY] yields
fileX -> [endpointA, endpointB] and fileY -> [endpointB]. -/
theorem C1_index_construction (endpoints : List EndpointConfig) (g : String) :
    lookupVal (fileToEndpoints endpoints) g = refListFor endpoints g ∧
    (hasKey (fileToEndpoints endpoints) g = true ↔
      ∃ ep ∈ endpoints, ∃ wc ∈ ep.workflows, wc.workflow = g) ∧
    fileToEndpoints exampleEndpoints =
      [("fileX", ["endpointA", "endpointB"]), ("fileY", ["endpointB"])] := by
  refine ⟨?_, ?_, ?_⟩
  · have h := lookupVal_indexEndpointsFrom g endpoints []
    simpa [fileToEndpoints, lookupVal] using h
  · have h := hasKey_indexEndpointsFrom g endpoints []
    rw [fileToEndpoints, h]
    simp [hasKey, List.any_eq_true]
  · rfl

/-- C4: terminate and execute are total (never throw to their caller);
each returns true exactly when the transport delivers a response with
a 2xx status, and false exactly when the transport errors or the
status is outside 200..299. -/
theorem C4_endpoint_client_error_contract (ttr : String → FetchResult)
    (etr : ExecuteRequest → FetchResult) (url : String) (port : Int) (wd : Json) :
    (terminateEndpoint ttr url = true ↔
      ∃ s, ttr (terminateRequestUrl url) = .resp s ∧ 200 ≤ s ∧ s ≤ 299) ∧
    (terminateEndpoint ttr url = false ↔
      (ttr (terminateRequestUrl url) = .err ∨
        ∃ s, ttr (terminateRequestUrl url) = .resp s ∧ ¬ (200 ≤ s ∧ s ≤ 299))) ∧
    (executeWorkflow etr url port wd = true ↔
      ∃ s, etr (mkExecuteRequest url port wd) = .resp s ∧ 200 ≤ s ∧ s ≤ 299) ∧
    (executeWorkflow etr url port wd = false ↔
      (etr (mkExecuteRequest url port wd) = .err ∨
        ∃ s, etr (mkExecuteRequest url port wd) = .resp s ∧ ¬ (200 ≤ s ∧ s ≤ 299))) := by
  refine ⟨?_, ?_, ?_, ?_⟩
  · cases h : ttr (terminateRequestUrl url) with
    | err => simp [terminateEndpoint, h]
    | resp st =>
      simp [terminateEndpoint, h, httpOk, Bool.and_eq_true, decide_eq_true_eq]
  · cases h : ttr (terminateRequestUrl url) with
    | err => simp [terminateEndpoint, h]
    | resp st =>
      simp [terminateEndpoint, h, httpOk, Bool.and_eq_true, decide_eq_true_eq]
  · cases h : etr (mkExecuteRequest url port wd) with
    | err => simp [executeWorkflow, h]
    | resp st =>
      simp [executeWorkflow, h, httpOk, Bool.and_eq_true, decide_eq_true_eq]
  · cases h : etr (mkExecuteRequest url port wd) with
    | err => simp [executeWorkflow, h]
    | resp st =>
      simp [executeWorkflow, h, httpOk, Bool.and_eq_true, decide_eq_true_eq]

/-- C5: every execute call started during an endpoint reload targets
POST http://{url}/api/bentoml/serve with body exactly
parallel=true, host="0.0.0.0", port=the workflow's port stringified,
and workflow_api=the parsed workflow document, passed through
unchanged from the loader. -/
theorem C5_execute_request_shape (fs : FS) (url : String)
    (wcs : List WorkflowConfig) (req : ExecuteRequest)
    (h : Event.execute req ∈ executeRound fs url wcs) :
    ∃ wc ∈ wcs, ∃ wd, loadWorkflowFile fs wc.workflow = some wd ∧ truthy wd = true ∧
      req = mkExecuteRequest url wc.port wd ∧
      req.reqUrl = "http://" ++ url ++ "/api/bentoml/serve" ∧
      req.parallel = true ∧ req.host = "0.0.0.0" ∧
      req.port = toString wc.port ∧ req.workflow_api = wd := by
  rw [executeRound_eq, List.mem_filterMap] at h
  obtain ⟨wc, hwc, heq⟩ := h
  cases hg : guardedLoad fs wc.workflow with
  | none => rw [hg] at heq; exact absurd heq (by simp)
  | some wd =>
    rw [hg] at heq
    simp only [Option.map_some', Option.some.injEq] at heq
    have hload := (guardedLoad_eq_some fs wc.workflow wd).mp hg
    have hreq : req = mkExecuteRequest url wc.port wd := by
      injection heq with h2
      exact h2.symm
    exact ⟨wc, hwc, wd, hload.1, hload.2, hreq, by rw [hreq]; rfl, by rw [hreq]; rfl,
      by rw [hreq]; rfl, by rw [hreq]; rfl, by rw [hreq]; rfl⟩

theorem traceEvents_executeAllWorkflows (fs : FS) (endpoints : List EndpointConfig) :
    traceEvents (executeAllWorkflows fs endpoints) =
      endpoints.flatMap (fun ep => executeRound fs ep.url ep.workflows) := by
  induction endpoints with
  | nil => rfl
  | cons ep rest ih =>
    rw [executeAllWorkflows, traceEvents_append, traceEvents_bulkExecuteRounds, ih]
    simp

theorem traceEvents_runOrchestration (fs : FS) (endpoints : List EndpointConfig) :
    traceEvents (runOrchestration fs endpoints) =
      terminateRound endpoints ++
        endpoints.flatMap (fun ep => executeRound fs ep.url ep.workflows) := by
  rw [runOrchestration, traceEvents_append, traceEvents_executeAllWorkflows]
  simp [terminateAllEndpoints, traceEvents]

theorem countP_isTerminate_terminateRound (endpoints : List EndpointConfig) :
    (terminateRound endpoints).countP isTerminate = endpoints.length := by
  induction endpoints with
  | nil => rfl
  | cons ep rest ih => simp [terminateRound, List.countP_cons, isTerminate, ih]

theorem countP_isExecute_terminateRound (endpoints : List EndpointConfig) :
    (terminateRound endpoints).countP isExecute = 0 := by
  induction endpoints with
  | nil => rfl
  | cons ep rest ih => simp [terminateRound, List.countP_cons, isExecute, ih]

theorem isExecute_of_mem_executeRound (fs : FS) (url : String)
    (wcs : List WorkflowConfig) (e : Event) (he : e ∈ executeRound fs url wcs) :
    isExecute e = true := by
  rw [executeRound_eq, List.mem_filterMap] at he
  obtain ⟨wc, _, heq⟩ := he
  cases hg : guardedLoad fs wc.workflow with
  | none => rw [hg] at heq; exact absurd heq (by simp)
  | some wd =>
    rw [hg] at heq
    simp only [Option.map_some', Option.some.injEq] at heq
    rw [← heq]
    rfl

theorem length_executeRound (fs : FS) (url : String) (wcs : List WorkflowConfig) :
    (executeRound fs url wcs).length =
      wcs.countP (fun wc => (guardedLoad fs wc.workflow).isSome) := by
  induction wcs with
  | nil => rfl
  | cons wc rest ih =>
    rw [executeRound_eq, List.filterMap_cons] at *
    cases hg : guardedLoad fs wc.workflow with
    | none => simp [hg, List.countP_cons, ih]
    | some wd => simp [hg, List.countP_cons, ih]

theorem executeRound_congr (fs1 fs2 : FS) (url : String) (wcs : List WorkflowConfig)
    (hg : ∀ w, guardedLoad fs1 w = guardedLoad fs2 w) :
    executeRound fs1 url wcs = executeRound fs2 url wcs := by
  have hfun : (fun wc : WorkflowConfig => (guardedLoad fs1 wc.workflow).map
        (fun wd => Event.execute (mkExecuteRequest url wc.port wd))) =
      (fun wc : WorkflowConfig => (guardedLoad fs2 wc.workflow).map
        (fun wd => Event.execute (mkExecuteRequest url wc.port wd))) :=
    funext (fun wc => by rw [hg])
  rw [executeRound_eq, executeRound_eq, hfun]

theorem bulkExecuteRounds_congr (fs1 fs2 : FS) (url : String) (wcs : List WorkflowConfig)
    (hg : ∀ w, guardedLoad fs1 w = guardedLoad fs2 w) :
    bulkExecuteRounds fs1 url wcs = bulkExecuteRounds fs2 url wcs := by
  have hfun : (fun wc : WorkflowConfig => (guardedLoad fs1 wc.workflow).map
        (fun wd => [Event.execute (mkExecuteRequest url wc.port wd)])) =
      (fun wc : WorkflowConfig => (guardedLoad fs2 wc.workflow).map
        (fun wd => [Event.execute (mkExecuteRequest url wc.port wd)])) :=
    funext (fun wc => by rw [hg])
  rw [bulkExecuteRounds_eq, bulkExecuteRounds_eq, hfun]

theorem executeAllWorkflows_congr (fs1 fs2 : FS) (endpoints : List EndpointConfig)
    (hg : ∀ w, guardedLoad fs1 w = guardedLoad fs2 w) :
    executeAllWorkflows fs1 endpoints = executeAllWorkflows fs2 endpoints := by
  induction endpoints with
  | nil => rfl
  | cons ep rest ih =>
    rw [executeAllWorkflows, executeAllWorkflows, ih,
      bulkExecuteRounds_congr fs1 fs2 ep.url ep.workflows hg]

theorem executeWorkflowsForEndpoint_congr (fs1 fs2 : FS)
    (endpoints : List EndpointConfig) (url : String)
    (hg : ∀ w, guardedLoad fs1 w = guardedLoad fs2 w) :
    executeWorkflowsForEndpoint fs1 endpoints url =
      executeWorkflowsForEndpoint fs2 endpoints url := by
  cases hf : endpoints.find? (fun ep => ep.url == url) with
  | none => simp [executeWorkflowsForEndpoint, hf]
  | some ep =>
    simp only [executeWorkflowsForEndpoint, hf]
    rw [executeRound_congr fs1 fs2 ep.url ep.workflows hg]

/-- C2: a change event for a path bound in the index processes each
recorded endpoint url sequentially, in recorded order (the handler's
trace is the concatenation of the per-endpoint traces); each affected
endpoint first awaits its terminate (its own round, independent of the
boolean result), then re-loads every workflow currently configured for
that endpoint — not only the changed file — and runs the executes of
all successfully loaded documents as one concurrent round, awaited
before the next endpoint starts. -/
theorem C2_change_dispatch (fs : FS) (endpoints : List EndpointConfig)
    (index : IndexT) (filename url : String) (ep : EndpointConfig)
    (h : endpoints.find? (fun e => e.url == url) = some ep) :
    changeHandler fs endpoints index filename =
      (lookupVal index filename).flatMap
        (fun u => executeWorkflowsForEndpoint fs endpoints u) ∧
    executeWorkflowsForEndpoint fs endpoints url =
      [[Event.terminate ep.url],
       ep.workflows.filterMap (fun wc => (guardedLoad fs wc.workflow).map
         (fun wd => Event.execute (mkExecuteRequest ep.url wc.port wd)))] := by
  constructor
  · rw [changeHandler, reloadLoop_eq_flatMap]
    rfl
  · simp only [executeWorkflowsForEndpoint, h]
    rw [executeRound_eq]

/-- C6: the loader returns the parsed document on success and none on
any I/O or parse error, never throwing (it is total); in the bulk
execute pass a workflow whose file fails to load (or loads falsy)
contributes no execute call, while every sibling workflow of the same
endpoint whose file loads truthy still gets its execute call. -/
theorem C6_loader_contract (fs : FS) (p : String) :
    (∀ j, fs p = some (some j) → loadWorkflowFile fs p = some j) ∧
    (fs p = some none → loadWorkflowFile fs p = none) ∧
    (fs p = none → loadWorkflowFile fs p = none) ∧
    (∀ url wcs,
      (traceEvents (bulkExecuteRounds fs url wcs)).length =
        wcs.countP (fun wc => (guardedLoad fs wc.workflow).isSome) ∧
      ∀ wc ∈ wcs, ∀ wd, guardedLoad fs wc.workflow = some wd →
        Event.execute (mkExecuteRequest url wc.port wd) ∈
          traceEvents (bulkExecuteRounds fs url wcs)) := by
  refine ⟨?_, ?_, ?_, ?_⟩
  · intro j h; simp [loadWorkflowFile, h]
  · intro h; simp [loadWorkflowFile, h]
  · intro h; simp [loadWorkflowFile, h]
  · intro url wcs
    constructor
    · rw [traceEvents_bulkExecuteRounds, length_executeRound]
    · intro wc hwc wd hg
      rw [traceEvents_bulkExecuteRounds, executeRound_eq]
      exact List.mem_filterMap.mpr ⟨wc, hwc, by rw [hg]; rfl⟩

/-- C7: an error while processing one affected endpoint is caught by
the per-endpoint try/catch, so the handler loop still produces the
trace of every affected endpoint in order regardless of the
error flags; and a change event whose path is not a key of the index
yields an empty trace — no terminate or execute call at all. -/
theorem C7_isolation_and_stale_noop (fs : FS) (endpoints : List EndpointConfig)
    (index : IndexT) (filename : String)
    (h : hasKey index filename = false) :
    changeHandler fs endpoints index filename = [] ∧
    ∀ (step : String → Trace × Bool) (urls : List String),
      reloadLoop step urls = urls.flatMap (fun u => (step u).1) := by
  constructor
  · rw [changeHandler, lookupVal_eq_nil_of_hasKey_false index filename h]
    rfl
  · exact reloadLoop_eq_flatMap

/-- C8: every bulk pass opens with a single concurrent round holding
exactly one terminate per configured endpoint, in configuration order,
and every later round holds only execute events — so all terminations
settle before any execute of the pass is issued; when no workflow file
of any endpoint loads, the pass issues exactly N terminate calls and
zero execute calls. -/
theorem C8_bulk_pass_shape (fs : FS) (endpoints : List EndpointConfig)
    (h : ∀ ep ∈ endpoints, ∀ wc ∈ ep.workflows,
      loadWorkflowFile fs wc.workflow = none) :
    (∀ (fs2 : FS) (eps2 : List EndpointConfig),
      runOrchestration fs2 eps2 =
        (eps2.map fun ep => Event.terminate ep.url) :: executeAllWorkflows fs2 eps2) ∧
    (∀ (fs2 : FS) (eps2 : List EndpointConfig),
      ∀ e ∈ traceEvents (executeAllWorkflows fs2 eps2), isExecute e = true) ∧
    executeAllWorkflows fs endpoints = [] ∧
    (traceEvents (runOrchestration fs endpoints)).countP isTerminate =
      endpoints.length ∧
    (traceEvents (runOrchestration fs endpoints)).countP isExecute = 0 := by
  have hguard : ∀ ep ∈ endpoints, ∀ wc ∈ ep.workflows,
      guardedLoad fs wc.workflow = none := by
    intro ep hep wc hwc
    rw [guardedLoad, h ep hep wc hwc]
  have hempty : executeAllWorkflows fs endpoints = [] := by
    induction endpoints with
    | nil => rfl
    | cons ep rest ih =>
      rw [executeAllWorkflows, bulkExecuteRounds_eq]
      rw [ih (fun e he wc hwc => h e (List.mem_cons_of_mem _ he) wc hwc)
        (fun e he wc hwc => hguard e (List.mem_cons_of_mem _ he) wc hwc)]
      rw [List.append_nil, List.filterMap_eq_nil_iff]
      intro wc hwc
      rw [hguard ep (List.mem_cons_self _ _) wc hwc]
      rfl
  refine ⟨?_, ?_, hempty, ?_, ?_⟩
  · intro fs2 eps2
    rw [runOrchestration, terminateAllEndpoints, terminateRound_eq_map]
    rfl
  · intro fs2 eps2 e he
    rw [traceEvents_executeAllWorkflows, List.mem_flatMap] at he
    obtain ⟨ep, _, hmem⟩ := he
    exact isExecute_of_mem_executeRound fs2 ep.url ep.workflows e hmem
  · rw [traceEvents_runOrchestration]
    rw [executeAllWorkflows_eq] at hempty
    have : endpoints.flatMap (fun ep => executeRound fs ep.url ep.workflows) = [] := by
      rw [List.flatMap_eq_nil_iff] at hempty ⊢
      intro ep hep
      have hb := hempty ep hep
      rw [bulkExecuteRounds_eq, List.filterMap_eq_nil_iff] at hb
      rw [executeRound_eq, List.filterMap_eq_nil_iff]
      intro wc hwc
      have := hb wc hwc
      cases hg : guardedLoad fs wc.workflow with
      | none => rfl
      | some wd => rw [hg] at this; exact absurd this (by simp)
    rw [this, List.append_nil, countP_isTerminate_terminateRound]
  · rw [traceEvents_runOrchestration]
    rw [executeAllWorkflows_eq] at hempty
    have : endpoints.flatMap (fun ep => executeRound fs ep.url ep.workflows) = [] := by
      rw [List.flatMap_eq_nil_iff] at hempty ⊢
      intro ep hep
      have hb := hempty ep hep
      rw [bulkExecuteRounds_eq, List.filterMap_eq_nil_iff] at hb
      rw [executeRound_eq, List.filterMap_eq_nil_iff]
      intro wc hwc
      have := hb wc hwc
      cases hg : guardedLoad fs wc.workflow with
      | none => rfl
      | some wd => rw [hg] at this; exact absurd this (by simp)
    rw [this, List.append_nil, countP_isExecute_terminateRound]

/-- C9: the bulk pass is a pure function of the configuration snapshot
and the workflow-file contents: two runs with the same configuration
and the same file contents produce identical traces — same calls, same
urls, ports and payloads, same order — and that common trace is the
canonical terminate-batch followed by the per-endpoint, per-workflow
executes of the guarded loads. -/
theorem C9_bulk_pass_idempotent (fs1 fs2 : FS) (eps1 eps2 : List EndpointConfig)
    (hfs : fs1 = fs2) (heps : eps1 = eps2) :
    runOrchestration fs1 eps1 = runOrchestration fs2 eps2 ∧
    traceEvents (runOrchestration fs1 eps1) =
      (eps1.map fun ep => Event.terminate ep.url) ++
        eps1.flatMap (fun ep => ep.workflows.filterMap
          (fun wc => (guardedLoad fs1 wc.workflow).map
            (fun wd => Event.execute (mkExecuteRequest ep.url wc.port wd)))) := by
  subst hfs
  subst heps
  refine ⟨rfl, ?_⟩
  rw [traceEvents_runOrchestration, terminateRound_eq_map]
  simp only [executeRound_eq]

/-- C10: a workflow file whose content is valid JSON parsing to a falsy
value (null, false, 0 or the empty string) is skipped by both the bulk
pass and the per-endpoint reload path exactly as if loading had
failed: the guard tests truthiness, so the guarded load is none, and
replacing the file by an I/O error changes neither trace. -/
theorem C10_falsy_documents_skipped (fs : FS) (filename : String) (j : Json)
    (h1 : fs filename = some (some j)) (h2 : truthy j = false)
    (endpoints : List EndpointConfig) (url : String) :
    guardedLoad fs filename = none ∧
    executeAllWorkflows (updateFs fs filename none) endpoints =
      executeAllWorkflows fs endpoints ∧
    executeWorkflowsForEndpoint (updateFs fs filename none) endpoints url =
      executeWorkflowsForEndpoint fs endpoints url := by
  have hg : ∀ w, guardedLoad (updateFs fs filename none) w = guardedLoad fs w := by
    intro w
    by_cases hw : w = filename
    · subst hw
      simp [guardedLoad, loadWorkflowFile, updateFs, h1, h2]
    · simp [guardedLoad, loadWorkflowFile, updateFs, hw]
  exact ⟨by simp [guardedLoad, loadWorkflowFile, h1, h2],
    executeAllWorkflows_congr _ _ endpoints hg,
    executeWorkflowsForEndpoint_congr _ _ endpoints url hg⟩

/-- The lifecycle state right after startup with a watcher established:
global.workflowWatcher holds watcher 0, nothing closed, no restart in
flight. -/
def startWatchState : WatchState :=
  { current := some 0, nextId := 1, created := [0], closes := [], pending := 0 }

/-- Two configuration-change notifications arriving while the first
restart's bulk pass is still in flight, then both restarts completing. -/
def overlappingRun : List LifecycleStep :=
  [.notify, .notify, .complete true, .complete true]

/-- C3 counterexample: with overlapping configuration-change
notifications the claim fails on the code.  From the normal
post-startup state, two notifications during one in-flight restart
close watcher 0 twice (close() is called again because
global.workflowWatcher is never unset), and the two completions each
install a fresh watcher, the first of which is never closed — leaving
two active watch subscriptions, not at most one. -/
theorem C3_watch_lifecycle_counterexample :
    WatchInv startWatchState ∧
    wfSteps startWatchState overlappingRun = true ∧
    (activeWatchers (runWatch startWatchState overlappingRun)).length = 2 ∧
    (runWatch startWatchState overlappingRun).closes.count 0 = 2 := by
  refine ⟨?_, by decide, by decide, by decide⟩
  unfold WatchInv
  decide

/-- C3 amended: provided configuration-change notifications never
overlap an in-flight cycle — each notification arrives only with no
restart pending, and each pending restart completes before the next
notification — then at every point of the run at most one watch
subscription is active and no handle is ever closed twice (so the
previously active subscription is closed exactly once before the new
one is created). -/
theorem C3_watch_lifecycle_amended (s0 : WatchState)
    (steps pre suf : List LifecycleStep)
    (h0 : WatchInv s0) (hsplit : steps = pre ++ suf)
    (hv : nonOverlapping s0 steps = true) :
    (activeWatchers (runWatch s0 pre)).length ≤ 1 ∧
    (runWatch s0 pre).closes.Nodup := by
  subst hsplit
  have hpre := nonOverlapping_prefix s0 pre suf hv
  have hInv := watchInv_runWatch s0 pre h0 hpre
  exact ⟨activeWatchers_length_le_one _ hInv, hInv.2.2.2.1⟩

/-- A non-overlapping run: one notification, whose restart completes
and installs a fresh watcher before anything else happens. -/
def sequentialRun : List LifecycleStep := [.notify, .complete true]

/-- Witness for the amended C3 at a concrete non-overlapping run. -/
theorem C3_watch_lifecycle_amended_witness :
    (WatchInv startWatchState ∧
      nonOverlapping startWatchState sequentialRun = true) ∧
    ((activeWatchers (runWatch startWatchState sequentialRun)).length ≤ 1 ∧
      (runWatch startWatchState sequentialRun).closes.Nodup) :=
  ⟨⟨by unfold WatchInv; decide, by decide⟩,
   C3_watch_lifecycle_amended startWatchState sequentialRun sequentialRun []
     (by unfold WatchInv; decide) rfl (by decide)⟩

/-- Filesystem in which every file parses to a truthy string equal to
its own name. -/
def exampleFs : FS := fun f => some (some (Json.str f))

/-- The second endpoint of the spec's worked example. -/
def exampleEpB : EndpointConfig :=
  { url := "endpointB",
    workflows := [{ workflow := "fileX", port := 2 }, { workflow := "fileY", port := 3 }] }

/-- Witness for C2 at the spec's example: a fileX change dispatches one
terminate+concurrent-execute cycle for endpointA and one for
endpointB, endpointB's single execute round covering fileX and fileY. -/
theorem C2_change_dispatch_witness :
    (exampleEndpoints.find? (fun e => e.url == "endpointB") = some exampleEpB) ∧
    (changeHandler exampleFs exampleEndpoints (fileToEndpoints exampleEndpoints) "fileX" =
        (lookupVal (fileToEndpoints exampleEndpoints) "fileX").flatMap
          (fun u => executeWorkflowsForEndpoint exampleFs exampleEndpoints u) ∧
      executeWorkflowsForEndpoint exampleFs exampleEndpoints "endpointB" =
        [[Event.terminate exampleEpB.url],
         exampleEpB.workflows.filterMap (fun wc => (guardedLoad exampleFs wc.workflow).map
           (fun wd => Event.execute (mkExecuteRequest exampleEpB.url wc.port wd)))]) ∧
    changeHandler exampleFs exampleEndpoints (fileToEndpoints exampleEndpoints) "fileX" =
      [[Event.terminate "endpointA"],
       [Event.execute (mkExecuteRequest "endpointA" 1 (Json.str "fileX"))],
       [Event.terminate "endpointB"],
       [Event.execute (mkExecuteRequest "endpointB" 2 (Json.str "fileX")),
        Event.execute (mkExecuteRequest "endpointB" 3 (Json.str "fileY"))]] :=
  ⟨rfl,
   C2_change_dispatch exampleFs exampleEndpoints (fileToEndpoints exampleEndpoints)
     "fileX" "endpointB" exampleEpB rfl,
   rfl⟩

/-- Filesystem in which every file parses to the JSON value true. -/
def truthyFs : FS := fun _ => some (some (Json.bool true))

/-- A single-workflow configuration fragment. -/
def singleWcs : List WorkflowConfig := [{ workflow := "w.json", port := 5 }]

/-- Witness for C5 at a concrete loaded workflow. -/
theorem C5_execute_request_shape_witness :
    (Event.execute (mkExecuteRequest "u" 5 (Json.bool true)) ∈
        executeRound truthyFs "u" singleWcs) ∧
    (∃ wc ∈ singleWcs, ∃ wd,
      loadWorkflowFile truthyFs wc.workflow = some wd ∧ truthy wd = true ∧
      mkExecuteRequest "u" 5 (Json.bool true) = mkExecuteRequest "u" wc.port wd ∧
      (mkExecuteRequest "u" 5 (Json.bool true)).reqUrl =
        "http://" ++ "u" ++ "/api/bentoml/serve" ∧
      (mkExecuteRequest "u" 5 (Json.bool true)).parallel = true ∧
      (mkExecuteRequest "u" 5 (Json.bool true)).host = "0.0.0.0" ∧
      (mkExecuteRequest "u" 5 (Json.bool true)).port = toString wc.port ∧
      (mkExecuteRequest "u" 5 (Json.bool true)).workflow_api = wd) :=
  ⟨List.mem_singleton.mpr rfl,
   C5_execute_request_shape truthyFs "u" singleWcs _ (List.mem_singleton.mpr rfl)⟩

/-- Filesystem in which bad.json has unparsable content and every
other file parses to a truthy string. -/
def siblingFs : FS := fun f =>
  if f == "bad.json" then some none else some (some (Json.str "wf"))

/-- An endpoint fragment with one failing and one loadable workflow. -/
def siblingWcs : List WorkflowConfig :=
  [{ workflow := "bad.json", port := 1 }, { workflow := "good.json", port := 2 }]

/-- Witness for C6: the failing file loads to none and contributes no
execute, while the sibling's execute call is still present. -/
theorem C6_loader_contract_witness :
    (siblingFs "bad.json" = some none) ∧
    loadWorkflowFile siblingFs "bad.json" = none ∧
    (traceEvents (bulkExecuteRounds siblingFs "u" siblingWcs)).length =
      siblingWcs.countP (fun wc => (guardedLoad siblingFs wc.workflow).isSome) ∧
    Event.execute (mkExecuteRequest "u" 2 (Json.str "wf")) ∈
      traceEvents (bulkExecuteRounds siblingFs "u" siblingWcs) :=
  ⟨rfl,
   (C6_loader_contract siblingFs "bad.json").2.1 rfl,
   ((C6_loader_contract siblingFs "bad.json").2.2.2 "u" siblingWcs).1,
   ((C6_loader_contract siblingFs "bad.json").2.2.2 "u" siblingWcs).2
     { workflow := "good.json", port := 2 }
     (List.mem_cons_of_mem _ (List.mem_cons_self _ _)) (Json.str "wf") rfl⟩

/-- Witness for C7: fileZ is not a key of the example index, so its
change event produces no calls. -/
theorem C7_isolation_and_stale_noop_witness :
    (hasKey (fileToEndpoints exampleEndpoints) "fileZ" = false) ∧
    (changeHandler exampleFs exampleEndpoints (fileToEndpoints exampleEndpoints)
        "fileZ" = [] ∧
      ∀ (step : String → Trace × Bool) (urls : List String),
        reloadLoop step urls = urls.flatMap (fun u => (step u).1)) :=
  ⟨rfl, C7_isolation_and_stale_noop exampleFs exampleEndpoints
     (fileToEndpoints exampleEndpoints) "fileZ" rfl⟩

/-- Filesystem on which every read fails. -/
def errorFs : FS := fun _ => none

/-- Witness for C8 with two endpoints and no loadable files: two
terminate calls, zero execute calls. -/
theorem C8_bulk_pass_shape_witness :
    (∀ ep ∈ exampleEndpoints, ∀ wc ∈ ep.workflows,
      loadWorkflowFile errorFs wc.workflow = none) ∧
    (traceEvents (runOrchestration errorFs exampleEndpoints)).countP isTerminate =
      exampleEndpoints.length ∧
    (traceEvents (runOrchestration errorFs exampleEndpoints)).countP isExecute = 0 :=
  ⟨fun _ _ _ _ => rfl,
   (C8_bulk_pass_shape errorFs exampleEndpoints (fun _ _ _ _ => rfl)).2.2.2.1,
   (C8_bulk_pass_shape errorFs exampleEndpoints (fun _ _ _ _ => rfl)).2.2.2.2⟩

/-- Witness for C9 at the example configuration and filesystem. -/
theorem C9_bulk_pass_idempotent_witness :
    (exampleFs = exampleFs ∧ exampleEndpoints = exampleEndpoints) ∧
    runOrchestration exampleFs exampleEndpoints =
      runOrchestration exampleFs exampleEndpoints :=
  ⟨⟨rfl, rfl⟩,
   (C9_bulk_pass_idempotent exampleFs exampleFs
     exampleEndpoints exampleEndpoints rfl rfl).1⟩

/-- Filesystem in which zero.json parses to the falsy number 0 and
every other file parses to a truthy string. -/
def zeroFs : FS := fun f =>
  if f == "zero.json" then some (some (Json.num 0)) else some (some (Json.str "wf"))

/-- A configuration pairing the falsy file with a loadable sibling. -/
def zeroEndpoints : List EndpointConfig :=
  [{ url := "endpointZ",
     workflows := [{ workflow := "zero.json", port := 1 },
                   { workflow := "other.json", port := 2 }] }]

/-- Witness for C10: zero.json parses to 0, which is falsy, its
guarded load is none, and erroring the file out changes nothing. -/
theorem C10_falsy_documents_skipped_witness :
    (zeroFs "zero.json" = some (some (Json.num 0)) ∧ truthy (Json.num 0) = false) ∧
    guardedLoad zeroFs "zero.json" = none ∧
    executeAllWorkflows (updateFs zeroFs "zero.json" none) zeroEndpoints =
      executeAllWorkflows zeroFs zeroEndpoints :=
  ⟨⟨rfl, rfl⟩,
   (C10_falsy_documents_skipped zeroFs "zero.json" (Json.num 0) rfl rfl
     zeroEndpoints "endpointZ").1,
   (C10_falsy_documents_skipped zeroFs "zero.json" (Json.num 0) rfl rfl
     zeroEndpoints "endpointZ").2.1⟩
